import Mathlib

/-!
Shallow embedding of the CCXT broker adapter (ccxtbt/ccxtbroker.py) of the
bt-ccxt-store repository: order records, the mapping table, the
reconciliation loop, submission, cancellation, the close helper and the
cash and value queries, together with proofs of the specified properties.

The exchange collaborator (ccxtstore.py, not among the embedded sources)
is a fixed response oracle passed as a parameter; the broker state is the
mutable data of the CCXTBroker object plus a trace of the exchange calls
it issued and of the log lines the properties reference.  Python
exceptions are modelled with Except, the error value carrying the broker
state at the raise point.
-/

deriving instance DecidableEq for Except

/-- Python exception values the modelled code can raise. -/
inductive PyErr where
  | keyError (k : String)
  | valueError
  | exchangeError (msg : String)
deriving DecidableEq

/-- One trade fill as reported by the exchange inside the trades list of a
snapshot. -/
structure Fill where
  id : String
  datetime : String
  amount : Int
  price : Int
deriving DecidableEq

/-- Dynamically typed Python value as stored in the executed_fills list of
an order: the source appends fill id strings (line 216) but tests
membership of the whole fill dict (line 210), so both shapes can meet in
one comparison. -/
inductive PyVal where
  | pstr (s : String)
  | pfill (f : Fill)
deriving DecidableEq

/-- Remote order snapshot returned by fetch_order and cancel_order: id,
side, amount, the optional trade list, and the remaining mapped status
fields as a key and value list (spec section 6). -/
structure Snapshot where
  id : String
  side : String
  amount : Int
  trades : Option (List Fill)
  fields : List (String × String)
deriving DecidableEq

/-- Python dict access on the mapped status fields of a snapshot:
KeyError when the key is absent. -/
def snapGet (s : Snapshot) (k : String) : Except PyErr String :=
  match s.fields.lookup k with
  | some v => .ok v
  | none => .error (.keyError k)

/-- Result of create_order as used by the submission path: the id that is
re-fetched and the price copied onto the order. -/
structure CreatedOrder where
  id : String
  price : Option Int
deriving DecidableEq

/-- One remote position entry as returned by get_binance_positions. -/
structure BinancePos where
  symbol : String
  positionAmt : Int
deriving DecidableEq

/-- Modelled from the spec: the exchange collaborator contract of spec
section 6 (ccxtstore.py is not among the embedded sources).  Responses
are a fixed oracle: fetch_order, cancel_order and create_order return a
snapshot or raise; positions and balance are the current remote
readings. -/
structure StoreOracle where
  fetch_order : String → Except PyErr Snapshot
  cancel_order : String → Except PyErr Snapshot
  create_order : String → String → String → Int → Option Int →
    List (String × Int) → Except PyErr CreatedOrder
  positions : List BinancePos
  balance : Int × Int

/-- Modelled from the spec: the engine order lifecycle states of spec
section 3 (backtrader OrderBase is an external collaborator; completed
and cancel set the corresponding terminal state). -/
inductive OrderStatus where
  | submitted
  | completed
  | canceled
deriving DecidableEq

/-- Locally tracked order (class CCXTOrder, lines 34 to 43).  tag is the
Python object identity, which list removal compares; ccxt_id is the id
field of the stored ccxt_order dict; executions records the engine-side
execute bookkeeping (datetime, amount, price of each applied fill),
modelled from spec section 4.2 step 2 since OrderBase.execute is an
external collaborator. -/
structure CCXTOrder where
  tag : Nat
  ccxt_id : String
  dataname : String
  ordtype : String
  size : Int
  price : Option Int
  executed_fills : List PyVal
  executions : List (String × Int × Int)
  status : OrderStatus
deriving DecidableEq

/-- Modelled from the spec: per-instrument position of the ledger
(backtrader Position is an external collaborator); update applies the
closing order size and price, spec section 4.2 step 3. -/
structure Position where
  size : Int
  price : Option Int
deriving DecidableEq

def emptyPosition : Position := { size := 0, price := none }

def posUpdate (p : Position) (sz : Int) (pr : Option Int) : Position :=
  { size := p.size + sz, price := pr }

/-- Exchange calls issued by the broker, in order: the call trace of one
run, used to state the no-network-call properties. -/
inductive ExCall where
  | fetchOrder (id : String)
  | createOrder (symbol otype side : String) (amount : Int) (price : Option Int)
  | cancelOrder (id : String)
  | fetchBalance
  | fetchPositions
deriving DecidableEq

/-- Mapping table (lines 103 to 111): the closed and canceled conditions,
each a field name and expected value evaluated against a snapshot. -/
structure Mappings where
  closed_key : String
  closed_val : String
  canceled_key : String
  canceled_val : String
deriving DecidableEq

def defaultMappings : Mappings :=
  { closed_key := "status", closed_val := "closed",
    canceled_key := "status", canceled_val := "canceled" }

/-- Engine order kind enum (Order.Market and friends). -/
inductive OrderKind where
  | market
  | limit
  | stop
  | stopLimit
deriving DecidableEq, BEq

def defaultOrderTypes : List (OrderKind × String) :=
  [(.market, "market"), (.limit, "limit"), (.stop, "stop"), (.stopLimit, "stop limit")]

/-- Mutable broker data: the open order set, the notification queue, the
position ledger, the cached cash and value of broker and store, the
fresh-object counter, the exchange call trace, and the log lines the
properties reference (debug prints that no property mentions are not
modelled). -/
structure BrokerState where
  open_orders : List CCXTOrder
  notifs : List CCXTOrder
  positions : List (String × Position)
  cash : Int
  value : Int
  store_cash : Int
  store_value : Int
  next_tag : Nat
  calls : List ExCall
  logs : List String
deriving DecidableEq

def addCall (st : BrokerState) (c : ExCall) : BrokerState :=
  { st with calls := st.calls ++ [c] }

def addLog (st : BrokerState) (s : String) : BrokerState :=
  { st with logs := st.logs ++ [s] }

/-- Number of orders carrying a given object identity in a list. -/
def countTag (l : List CCXTOrder) (t : Nat) : Nat :=
  l.countP (fun o => o.tag == t)

/-- Write-through of an in-place mutation of an order object: every list
cell holding the object (same identity) sees the new value. -/
def writeBack (l : List CCXTOrder) (o : CCXTOrder) : List CCXTOrder :=
  l.map (fun x => if x.tag == o.tag then o else x)

/-- Python list.remove by object identity: drops the first occurrence,
raises ValueError when the object is absent. -/
def pyRemoveTag : List CCXTOrder → Nat → Except PyErr (List CCXTOrder)
  | [], _ => .error .valueError
  | x :: xs, t =>
    if x.tag == t then .ok xs
    else
      match pyRemoveTag xs t with
      | .ok ys => .ok (x :: ys)
      | .error e => .error e

/-- Defaultdict read of the position ledger: the empty position when the
instrument has no entry yet. -/
def lookupD (ps : List (String × Position)) (k : String) : Position :=
  (ps.lookup k).getD emptyPosition

/-- Store an updated position for an instrument. -/
def setAssoc (ps : List (String × Position)) (k : String) (v : Position) :
    List (String × Position) :=
  (k, v) :: ps.filter (fun kv => !(kv.1 == k))

namespace CCXTBroker

/-- Fill application loop of next (lines 204 to 216): for each fill of the
trade list, the membership test compares the fill dict against the list
of already appended fill id strings; on a pass, execute records the fill
and the fill id string is appended.  A missing trade list means no new
fills. -/
def applyFills (o : CCXTOrder) (snap : Snapshot) : CCXTOrder :=
  match snap.trades with
  | none => o
  | some fills =>
    fills.foldl
      (fun acc f =>
        if PyVal.pfill f ∈ acc.executed_fills then acc
        else
          { acc with
            executions := acc.executions ++ [(f.datetime, f.amount, f.price)],
            executed_fills := acc.executed_fills ++ [PyVal.pstr f.id] })
      o

/-- get_balance (lines 142 to 146): refresh the store cache from the
exchange balance endpoint and copy it into the broker. -/
def get_balance (ora : StoreOracle) (st : BrokerState) : BrokerState :=
  { st with calls := st.calls ++ [ExCall.fetchBalance],
            store_cash := ora.balance.1, store_value := ora.balance.2,
            cash := ora.balance.1, value := ora.balance.2 }

/-- getcash (lines 154 to 159): copy the cached store cash into the broker
and return it; no exchange call. -/
def getcash (st : BrokerState) : Int × BrokerState :=
  (st.store_cash, { st with cash := st.store_cash })

/-- getvalue (lines 161 to 164): copy the cached store value into the
broker and return it; no exchange call. -/
def getvalue (st : BrokerState) : Int × BrokerState :=
  (st.store_value, { st with value := st.store_value })

/-- Engine-side completed transition of an order. -/
def setCompleted (o : CCXTOrder) : CCXTOrder := { o with status := .completed }

/-- Engine-side canceled transition of an order. -/
def setCanceled (o : CCXTOrder) : CCXTOrder := { o with status := .canceled }

/-- Canceled-status check closing one reconciliation step (lines 234 to
241): evaluated on the same snapshot independently of the closed check;
on a match the order is removed first (list remove, raising ValueError
when the object is absent), then marked canceled and notified. -/
def afterClosed (m : Mappings) (st : BrokerState) (o : CCXTOrder) (snap : Snapshot) :
    Except (PyErr × BrokerState) BrokerState :=
  match snapGet snap m.canceled_key with
  | .error e => .error (e, st)
  | .ok xv =>
    if xv = m.canceled_val then
      match pyRemoveTag st.open_orders o.tag with
      | .error e => .error (e, st)
      | .ok l => .ok { st with open_orders := l, notifs := st.notifs ++ [setCanceled o] }
    else .ok st

/-- One iteration of the reconciliation loop body of next (lines 189 to
241) for one tracked order: fetch the snapshot, apply new fills, then
evaluate the closed condition (position update, completed, notify,
remove, balance refresh) and, independently, the canceled condition. -/
def nextStep (ora : StoreOracle) (m : Mappings) (st : BrokerState) (o : CCXTOrder) :
    Except (PyErr × BrokerState) BrokerState :=
  let st0 := addCall st (ExCall.fetchOrder o.ccxt_id)
  match ora.fetch_order o.ccxt_id with
  | .error e => .error (e, st0)
  | .ok snap =>
    let o1 := applyFills o snap
    let st1 := { st0 with open_orders := writeBack st0.open_orders o1 }
    match snapGet snap m.closed_key with
    | .error e => .error (e, st1)
    | .ok cv =>
      if cv = m.closed_val then
        let p2 := posUpdate (lookupD st1.positions o1.dataname) o1.size o1.price
        let o2 := setCompleted o1
        let st2 := { st1 with positions := setAssoc st1.positions o1.dataname p2,
                              notifs := st1.notifs ++ [o2] }
        match pyRemoveTag st2.open_orders o2.tag with
        | .error e => .error (e, st2)
        | .ok l => afterClosed m (get_balance ora { st2 with open_orders := l }) o2 snap
      else afterClosed m st1 o1 snap

/-- Iteration of next over the copy of open_orders taken at loop entry
(line 189); an uncaught exception aborts the remaining iterations. -/
def runOrders (ora : StoreOracle) (m : Mappings) :
    List CCXTOrder → BrokerState → Except (PyErr × BrokerState) BrokerState
  | [], st => .ok st
  | o :: rest, st =>
    match nextStep ora m st o with
    | .ok st1 => runOrders ora m rest st1
    | .error e => .error e

/-- Reconciliation pass next (lines 185 to 241). -/
def next (ora : StoreOracle) (m : Mappings) (st : BrokerState) :
    Except (PyErr × BrokerState) BrokerState :=
  runOrders ora m st.open_orders st

/-- Order submission _submit (lines 243 to 270): reject zero size or zero
price, resolve the order type with market as default, attach the creation
timestamp, create then re-fetch the order, wrap it, track it and notify.
The params dict is modelled flat; the nested params unwrapping of line
256 is not observed by any property. -/
def submit (ora : StoreOracle) (ots : List (OrderKind × String)) (st : BrokerState)
    (dataname : String) (exectype : Option OrderKind) (side : String)
    (amount : Int) (price : Option Int) (now : Int) (params : List (String × Int)) :
    Except (PyErr × BrokerState) (Option CCXTOrder × BrokerState) :=
  if amount = 0 ∨ price = some 0 then .ok (none, st)
  else
    let order_type := (exectype.bind (fun e => ots.lookup e)).getD "market"
    let params1 := params ++ [("created", now)]
    let st1 := addCall st (ExCall.createOrder dataname order_type side amount price)
    match ora.create_order dataname order_type side amount price params1 with
    | .error e => .error (e, st1)
    | .ok ret_ord =>
      let st2 := addCall st1 (ExCall.fetchOrder ret_ord.id)
      match ora.fetch_order ret_ord.id with
      | .error e => .error (e, st2)
      | .ok snap =>
        let order : CCXTOrder :=
          { tag := st2.next_tag, ccxt_id := snap.id, dataname := dataname,
            ordtype := if snap.side = "buy" then "buy" else "sell",
            size := snap.amount, price := ret_ord.price,
            executed_fills := [], executions := [], status := .submitted }
        .ok (some order,
             { st2 with next_tag := st2.next_tag + 1,
                        open_orders := st2.open_orders ++ [order],
                        notifs := st2.notifs ++ [order] })

/-- Method buy (lines 272 to 284): delegates to submit with side buy. -/
def buy (ora : StoreOracle) (ots : List (OrderKind × String)) (st : BrokerState)
    (dataname : String) (exectype : Option OrderKind) (amount : Int)
    (price : Option Int) (now : Int) (params : List (String × Int)) :
    Except (PyErr × BrokerState) (Option CCXTOrder × BrokerState) :=
  submit ora ots st dataname exectype "buy" amount price now params

/-- Method sell (lines 286 to 298): delegates to submit with side sell. -/
def sell (ora : StoreOracle) (ots : List (OrderKind × String)) (st : BrokerState)
    (dataname : String) (exectype : Option OrderKind) (amount : Int)
    (price : Option Int) (now : Int) (params : List (String × Int)) :
    Except (PyErr × BrokerState) (Option CCXTOrder × BrokerState) :=
  submit ora ots st dataname exectype "sell" amount price now params

/-- Symbol normalisation of close (line 314): the dataname with every
slash removed. -/
def stripSlash (s : String) : String :=
  ⟨s.data.filter (fun c => c != '/')⟩

/-- Close helper (lines 300 to 336): fetch remote positions; the close-all
branch is the acknowledged stub returning none; otherwise look up the
signed position amount of the instrument (an empty lookup is the caught
IndexError returning none), and issue an offsetting sell when long or buy
when short of the requested or full absolute size. -/
def close (ora : StoreOracle) (ots : List (OrderKind × String)) (st : BrokerState)
    (dataname : String) (size : Option Int) (allFlag : Bool) (now : Int) :
    Except (PyErr × BrokerState) (Option CCXTOrder × BrokerState) :=
  let st0 := addCall st ExCall.fetchPositions
  if allFlag then .ok (none, st0)
  else
    match (ora.positions.filter (fun p => p.symbol == stripSlash dataname)).head? with
    | none => .ok (none, st0)
    | some p =>
      let possize := p.positionAmt
      let sz := |size.getD possize|
      if 0 < possize then sell ora ots st0 dataname none sz none now []
      else if possize < 0 then buy ora ots st0 dataname none sz none now []
      else .ok (none, st0)

/-- Cancel (lines 338 to 375): re-fetch first and short-circuit when the
snapshot is already closed; otherwise issue the exchange cancel and, when
the returned snapshot matches the canceled condition, remove, mark
canceled and notify, swallowing (with two log lines) the ValueError of a
removal from which the order is already absent; the order object is
returned in every non-raising path. -/
def cancel (ora : StoreOracle) (m : Mappings) (st : BrokerState) (order : CCXTOrder) :
    Except (PyErr × BrokerState) (CCXTOrder × BrokerState) :=
  let oID := order.ccxt_id
  let st0 := addCall st (ExCall.fetchOrder oID)
  match ora.fetch_order oID with
  | .error e => .error (e, st0)
  | .ok snap =>
    match snapGet snap m.closed_key with
    | .error e => .error (e, st0)
    | .ok cv =>
      if cv = m.closed_val then .ok (order, st0)
      else
        let st1 := addCall st0 (ExCall.cancelOrder oID)
        match ora.cancel_order oID with
        | .error e => .error (e, st1)
        | .ok snap2 =>
          match snapGet snap2 m.canceled_key with
          | .error e => .error (e, st1)
          | .ok xv =>
            if xv = m.canceled_val then
              match pyRemoveTag st1.open_orders order.tag with
              | .ok l =>
                let o2 := setCanceled order
                .ok (o2, { st1 with open_orders := l, notifs := st1.notifs ++ [o2] })
              | .error _ =>
                .ok (order, addLog (addLog st1 "self.open_orders") "in cancel order, order is")
            else .ok (order, st1)

end CCXTBroker

/-- The closed condition of the mapping table holds on a snapshot. -/
abbrev isClosed (m : Mappings) (snap : Snapshot) : Prop :=
  snapGet snap m.closed_key = .ok m.closed_val

/-- The canceled condition of the mapping table holds on a snapshot. -/
abbrev isCanceled (m : Mappings) (snap : Snapshot) : Prop :=
  snapGet snap m.canceled_key = .ok m.canceled_val

/-! Projection lemmas for the small state helpers. -/

@[simp] theorem addCall_open (st : BrokerState) (c : ExCall) :
    (addCall st c).open_orders = st.open_orders := rfl

@[simp] theorem addCall_notifs (st : BrokerState) (c : ExCall) :
    (addCall st c).notifs = st.notifs := rfl

@[simp] theorem addCall_positions (st : BrokerState) (c : ExCall) :
    (addCall st c).positions = st.positions := rfl

@[simp] theorem addCall_calls (st : BrokerState) (c : ExCall) :
    (addCall st c).calls = st.calls ++ [c] := rfl

@[simp] theorem addCall_logs (st : BrokerState) (c : ExCall) :
    (addCall st c).logs = st.logs := rfl

@[simp] theorem addLog_open (st : BrokerState) (s : String) :
    (addLog st s).open_orders = st.open_orders := rfl

@[simp] theorem addLog_notifs (st : BrokerState) (s : String) :
    (addLog st s).notifs = st.notifs := rfl

@[simp] theorem addLog_calls (st : BrokerState) (s : String) :
    (addLog st s).calls = st.calls := rfl

@[simp] theorem addLog_logs (st : BrokerState) (s : String) :
    (addLog st s).logs = st.logs ++ [s] := rfl

@[simp] theorem get_balance_open (ora : StoreOracle) (st : BrokerState) :
    (CCXTBroker.get_balance ora st).open_orders = st.open_orders := rfl

@[simp] theorem get_balance_notifs (ora : StoreOracle) (st : BrokerState) :
    (CCXTBroker.get_balance ora st).notifs = st.notifs := rfl

/-! Counting lemmas for object identities in order lists. -/

theorem countTag_nil (t : Nat) : countTag [] t = 0 := rfl

theorem countTag_cons (x : CCXTOrder) (xs : List CCXTOrder) (t : Nat) :
    countTag (x :: xs) t = countTag xs t + (if x.tag = t then 1 else 0) := by
  simp [countTag, List.countP_cons]

theorem countTag_append (l1 l2 : List CCXTOrder) (t : Nat) :
    countTag (l1 ++ l2) t = countTag l1 t + countTag l2 t := by
  simp [countTag, List.countP_append]

theorem countTag_singleton_append (l : List CCXTOrder) (x : CCXTOrder) (t : Nat) :
    countTag (l ++ [x]) t = countTag l t + (if x.tag = t then 1 else 0) := by
  rw [countTag_append, countTag_cons, countTag_nil, Nat.zero_add]

theorem countTag_eq_zero (l : List CCXTOrder) (t : Nat) :
    countTag l t = 0 ↔ ∀ x ∈ l, x.tag ≠ t := by
  induction l with
  | nil => simp [countTag_nil]
  | cons x xs ih =>
    rw [countTag_cons]
    constructor
    · intro h
      have hx : (if x.tag = t then 1 else 0) = 0 ∧ countTag xs t = 0 := by omega
      intro y hy
      rcases List.mem_cons.mp hy with rfl | hy
      · intro hcontra
        rw [if_pos hcontra] at hx
        exact absurd hx.1 one_ne_zero
      · exact (ih.mp hx.2) y hy
    · intro h
      rw [ih.mpr (fun y hy => h y (List.mem_cons_of_mem x hy)), if_neg (h x (List.mem_cons_self x xs))]

theorem countTag_writeBack (l : List CCXTOrder) (o : CCXTOrder) (t : Nat) :
    countTag (writeBack l o) t = countTag l t := by
  induction l with
  | nil => rfl
  | cons x xs ih =>
    show countTag ((if x.tag == o.tag then o else x) :: writeBack xs o) t = _
    rw [countTag_cons, countTag_cons, ih]
    by_cases hx : x.tag == o.tag
    · rw [if_pos hx]
      have : x.tag = o.tag := by simpa using hx
      rw [this]
    · rw [if_neg hx]

theorem pyRemoveTag_absent (l : List CCXTOrder) (t : Nat) (h : countTag l t = 0) :
    pyRemoveTag l t = .error .valueError := by
  induction l with
  | nil => rfl
  | cons x xs ih =>
    rw [countTag_cons] at h
    have hx : x.tag ≠ t := by
      intro hcontra
      rw [if_pos hcontra] at h
      omega
    have hxs : countTag xs t = 0 := by omega
    show (if x.tag == t then _ else _) = _
    rw [if_neg (by simpa using hx), ih hxs]

theorem pyRemoveTag_ok_self (l l' : List CCXTOrder) (t : Nat)
    (h : pyRemoveTag l t = .ok l') : countTag l' t + 1 = countTag l t := by
  induction l generalizing l' with
  | nil => exact absurd h (by simp [pyRemoveTag])
  | cons x xs ih =>
    by_cases hx : x.tag == t
    · have hl : xs = l' := by
        simpa [pyRemoveTag, hx] using h
      subst hl
      rw [countTag_cons, if_pos (by simpa using hx)]
    · rw [show pyRemoveTag (x :: xs) t =
            (match pyRemoveTag xs t with
             | .ok ys => .ok (x :: ys)
             | .error e => .error e) by simp [pyRemoveTag, hx]] at h
      cases hr : pyRemoveTag xs t with
      | ok ys =>
        rw [hr] at h
        have hl : x :: ys = l' := by simpa using h
        subst hl
        have hne : ¬ x.tag = t := by simpa using hx
        simp only [countTag_cons, if_neg hne]
        have := ih ys hr
        omega
      | error e =>
        rw [hr] at h
        exact absurd h (by simp)

theorem pyRemoveTag_ok_other (l l' : List CCXTOrder) (t t' : Nat) (ht : t' ≠ t)
    (h : pyRemoveTag l t = .ok l') : countTag l' t' = countTag l t' := by
  induction l generalizing l' with
  | nil => exact absurd h (by simp [pyRemoveTag])
  | cons x xs ih =>
    by_cases hx : x.tag == t
    · have hl : xs = l' := by simpa [pyRemoveTag, hx] using h
      subst hl
      have hxt : x.tag = t := by simpa using hx
      rw [countTag_cons, if_neg (by omega)]
      omega
    · rw [show pyRemoveTag (x :: xs) t =
            (match pyRemoveTag xs t with
             | .ok ys => .ok (x :: ys)
             | .error e => .error e) by simp [pyRemoveTag, hx]] at h
      cases hr : pyRemoveTag xs t with
      | ok ys =>
        rw [hr] at h
        have hl : x :: ys = l' := by simpa using h
        subst hl
        rw [countTag_cons, countTag_cons, ih ys hr]
      | error e =>
        rw [hr] at h
        exact absurd h (by simp)

theorem pyRemoveTag_isOk (l : List CCXTOrder) (t : Nat) (h : 0 < countTag l t) :
    ∃ l', pyRemoveTag l t = .ok l' := by
  induction l with
  | nil => exact absurd h (by simp [countTag_nil])
  | cons x xs ih =>
    by_cases hx : x.tag == t
    · exact ⟨xs, by simp [pyRemoveTag, hx]⟩
    · rw [countTag_cons, if_neg (by simpa using hx)] at h
      obtain ⟨ys, hys⟩ := ih (by omega)
      exact ⟨x :: ys, by simp [pyRemoveTag, hx, hys]⟩

/-! Shared concrete fixtures used to instantiate theorems with hypotheses. -/

/-- Oracle whose every endpoint fails: used where no call must happen. -/
def oraNull : StoreOracle :=
  { fetch_order := fun _ => .error (.exchangeError "offline"),
    cancel_order := fun _ => .error (.exchangeError "offline"),
    create_order := fun _ _ _ _ _ _ => .error (.exchangeError "offline"),
    positions := [], balance := (0, 0) }

/-- Broker state with no tracked orders. -/
def stEmpty : BrokerState :=
  { open_orders := [], notifs := [], positions := [], cash := 0, value := 0,
    store_cash := 3, store_value := 4, next_tag := 1, calls := [], logs := [] }

/-- One concrete tracked order. -/
def ordW : CCXTOrder :=
  { tag := 7, ccxt_id := "w1", dataname := "BTC/USD", ordtype := "buy",
    size := 1, price := some 100, executed_fills := [], executions := [],
    status := .submitted }

def snapClosedW : Snapshot :=
  { id := "w1", side := "buy", amount := 1, trades := none,
    fields := [("status", "closed")] }

def snapOpenW : Snapshot :=
  { id := "w1", side := "buy", amount := 1, trades := none,
    fields := [("status", "open")] }

def snapCanceledW : Snapshot :=
  { id := "w1", side := "buy", amount := 1, trades := none,
    fields := [("status", "canceled")] }

def oraClosedW : StoreOracle :=
  { oraNull with fetch_order := fun _ => .ok snapClosedW }

def oraCancelW : StoreOracle :=
  { oraNull with fetch_order := fun _ => .ok snapOpenW,
                 cancel_order := fun _ => .ok snapCanceledW }

def oraCancelNoW : StoreOracle :=
  { oraNull with fetch_order := fun _ => .ok snapOpenW,
                 cancel_order := fun _ => .ok snapOpenW }

/-- C5: a submission request with size zero or price zero returns no order
(none), issues no exchange create or fetch call, appends nothing to the
open order set, enqueues no notification and does not raise: submit
returns ok none with the broker state unchanged. -/
theorem C5_submit_zero_rejected (ora : StoreOracle) (ots : List (OrderKind × String))
    (st : BrokerState) (dataname : String) (exectype : Option OrderKind)
    (side : String) (amount : Int) (price : Option Int) (now : Int)
    (params : List (String × Int))
    (h : amount = 0 ∨ price = some 0) :
    CCXTBroker.submit ora ots st dataname exectype side amount price now params =
      .ok (none, st) := by
  unfold CCXTBroker.submit
  rw [if_pos h]

/-- C5 witness: submitting size zero at price 100 on the empty state is
rejected with the state unchanged. -/
theorem C5_witness :
    ((0 : Int) = 0 ∨ (some 100 : Option Int) = some 0) ∧
    CCXTBroker.submit oraNull defaultOrderTypes stEmpty "BTC/USD" none "buy" 0
      (some 100) 9 [] = .ok (none, stEmpty) :=
  ⟨Or.inl rfl,
   C5_submit_zero_rejected oraNull defaultOrderTypes stEmpty "BTC/USD" none "buy" 0
     (some 100) 9 [] (Or.inl rfl)⟩

/-- C6: cancelling an order whose re-fetched snapshot already satisfies
the closed condition returns the order unchanged and the state changed
only by the recorded fetch call: zero exchange cancel calls, open order
set and notification queue unchanged. -/
theorem C6_cancel_closed_short_circuit (ora : StoreOracle) (m : Mappings)
    (st : BrokerState) (order : CCXTOrder) (snap : Snapshot)
    (hfetch : ora.fetch_order order.ccxt_id = .ok snap)
    (hclosed : isClosed m snap) :
    CCXTBroker.cancel ora m st order =
      .ok (order, addCall st (ExCall.fetchOrder order.ccxt_id)) := by
  simp [CCXTBroker.cancel, hfetch, hclosed]

/-- C6 witness: cancel against a snapshot already closed remotely. -/
theorem C6_witness :
    CCXTBroker.cancel oraClosedW defaultMappings stEmpty ordW =
      .ok (ordW, addCall stEmpty (ExCall.fetchOrder ordW.ccxt_id)) :=
  C6_cancel_closed_short_circuit oraClosedW defaultMappings stEmpty ordW snapClosedW
    rfl (by decide)

/-- C8: when the exchange cancel result satisfies the canceled condition
but the order is absent from the open order set, the ValueError of the
failed removal is swallowed, two log lines are written, and the caller
still receives the order object: cancel returns ok with the order, the
open order set and the notification queue unchanged. -/
theorem C8_cancel_absent_swallowed (ora : StoreOracle) (m : Mappings)
    (st : BrokerState) (order : CCXTOrder) (snap snap2 : Snapshot) (cv : String)
    (hfetch : ora.fetch_order order.ccxt_id = .ok snap)
    (hcv : snapGet snap m.closed_key = .ok cv)
    (hncv : cv ≠ m.closed_val)
    (hcanc : ora.cancel_order order.ccxt_id = .ok snap2)
    (hx : isCanceled m snap2)
    (habsent : countTag st.open_orders order.tag = 0) :
    CCXTBroker.cancel ora m st order =
      .ok (order,
        addLog (addLog (addCall (addCall st (ExCall.fetchOrder order.ccxt_id))
          (ExCall.cancelOrder order.ccxt_id)) "self.open_orders")
          "in cancel order, order is") := by
  have hrem := pyRemoveTag_absent st.open_orders order.tag habsent
  simp [CCXTBroker.cancel, hfetch, hcv, hncv, hcanc, hx, hrem]

/-- C8 witness: cancel of an order no longer tracked, with the exchange
confirming the cancellation. -/
theorem C8_witness :
    CCXTBroker.cancel oraCancelW defaultMappings stEmpty ordW =
      .ok (ordW,
        addLog (addLog (addCall (addCall stEmpty (ExCall.fetchOrder ordW.ccxt_id))
          (ExCall.cancelOrder ordW.ccxt_id)) "self.open_orders")
          "in cancel order, order is") :=
  C8_cancel_absent_swallowed oraCancelW defaultMappings stEmpty ordW snapOpenW
    snapCanceledW "open" rfl (by decide) (by decide) rfl (by decide) (by decide)

/-- C10: when the exchange cancel call is issued but the returned snapshot
does not satisfy the canceled condition, the open order set is unchanged,
the order object is not mutated, no notification is enqueued, and the
original order is returned: the state changes only by the two recorded
exchange calls. -/
theorem C10_cancel_nonmatching_frame (ora : StoreOracle) (m : Mappings)
    (st : BrokerState) (order : CCXTOrder) (snap snap2 : Snapshot) (cv xv : String)
    (hfetch : ora.fetch_order order.ccxt_id = .ok snap)
    (hcv : snapGet snap m.closed_key = .ok cv)
    (hncv : cv ≠ m.closed_val)
    (hcanc : ora.cancel_order order.ccxt_id = .ok snap2)
    (hx : snapGet snap2 m.canceled_key = .ok xv)
    (hnxv : xv ≠ m.canceled_val) :
    CCXTBroker.cancel ora m st order =
      .ok (order, addCall (addCall st (ExCall.fetchOrder order.ccxt_id))
        (ExCall.cancelOrder order.ccxt_id)) := by
  simp [CCXTBroker.cancel, hfetch, hcv, hncv, hcanc, hx, hnxv]

/-- C10 witness: cancel whose exchange result still reports the order
open. -/
theorem C10_witness :
    CCXTBroker.cancel oraCancelNoW defaultMappings stEmpty ordW =
      .ok (ordW, addCall (addCall stEmpty (ExCall.fetchOrder ordW.ccxt_id))
        (ExCall.cancelOrder ordW.ccxt_id)) :=
  C10_cancel_nonmatching_frame oraCancelNoW defaultMappings stEmpty ordW snapOpenW
    snapOpenW "open" "open" rfl (by decide) (by decide) rfl (by decide) (by decide)

/-- C9: getcash and getvalue return the cached store scalars without any
exchange call, and leave every component of the broker and store state
other than the corresponding broker-side cached copy unchanged. -/
theorem C9_cash_value_cached_frame (st : BrokerState) :
    (CCXTBroker.getcash st).1 = st.store_cash ∧
    (CCXTBroker.getvalue st).1 = st.store_value ∧
    (CCXTBroker.getcash st).2 = { st with cash := st.store_cash } ∧
    (CCXTBroker.getvalue st).2 = { st with value := st.store_value } ∧
    (CCXTBroker.getcash st).2.calls = st.calls ∧
    (CCXTBroker.getvalue st).2.calls = st.calls ∧
    (CCXTBroker.getcash st).2.open_orders = st.open_orders ∧
    (CCXTBroker.getcash st).2.notifs = st.notifs ∧
    (CCXTBroker.getcash st).2.positions = st.positions ∧
    (CCXTBroker.getcash st).2.store_cash = st.store_cash ∧
    (CCXTBroker.getcash st).2.store_value = st.store_value ∧
    (CCXTBroker.getvalue st).2.store_cash = st.store_cash ∧
    (CCXTBroker.getvalue st).2.store_value = st.store_value :=
  ⟨rfl, rfl, rfl, rfl, rfl, rfl, rfl, rfl, rfl, rfl, rfl, rfl, rfl⟩

/-! Concrete fixtures and evaluations for the reconciliation loop claims. -/

def fillF1 : Fill := { id := "f1", datetime := "t0", amount := 1, price := 100 }

/-- Snapshot that stays open and keeps reporting the same single fill f1,
as an exchange does when re-polled with an unchanged state. -/
def snapOpenF1 : Snapshot :=
  { id := "o1", side := "buy", amount := 1, trades := some [fillF1],
    fields := [("status", "open")] }

def oraC1 : StoreOracle := { oraNull with fetch_order := fun _ => .ok snapOpenF1 }

def ordC1 : CCXTOrder :=
  { tag := 1, ccxt_id := "o1", dataname := "BTC/USD", ordtype := "buy",
    size := 1, price := some 100, executed_fills := [], executions := [],
    status := .submitted }

def stC1 : BrokerState := { stEmpty with open_orders := [ordC1], next_tag := 2 }

/-- C1, evaluation at the failing input: two reconciliation passes over an
unchanged remote snapshot whose trade list holds the single fill f1.  The
fill is executed in both passes and the fill id f1 is appended twice,
because the membership test of line 210 compares the fill dict against
the stored fill id strings and therefore never matches: the claimed
invariant that a fill identifier is never applied twice fails. -/
theorem C1_fill_reapplied :
    ((CCXTBroker.next oraC1 defaultMappings stC1).bind
       (fun s => CCXTBroker.next oraC1 defaultMappings s)).map
      (fun s => s.open_orders.map (fun o => (o.executions.length, o.executed_fills)))
    = .ok [(2, [PyVal.pstr "f1", PyVal.pstr "f1"])] := by decide

/-- Mapping table with closed and canceled conditions on distinct fields,
as the docstring of the source itself illustrates (status closed, result
one). -/
def mapC2 : Mappings :=
  { closed_key := "status", closed_val := "closed",
    canceled_key := "result", canceled_val := "1" }

/-- Snapshot satisfying both the closed and the canceled condition of
mapC2. -/
def snapBothC2 : Snapshot :=
  { id := "o2", side := "buy", amount := 1, trades := none,
    fields := [("status", "closed"), ("result", "1")] }

def ordC2 : CCXTOrder :=
  { tag := 3, ccxt_id := "o2", dataname := "ETH/USD", ordtype := "buy",
    size := 1, price := some 100, executed_fills := [], executions := [],
    status := .submitted }

def oraC2 : StoreOracle :=
  { oraNull with fetch_order := fun _ => .ok snapBothC2, balance := (5, 7) }

def stC2 : BrokerState := { stEmpty with open_orders := [ordC2], next_tag := 4 }

/-- State at the crash: the closed path has run in full (position update,
completed notification, removal, balance refresh) and the canceled path
then attempts a second removal of the already removed order. -/
def stC2post : BrokerState :=
  { open_orders := [], notifs := [CCXTBroker.setCompleted ordC2],
    positions := [("ETH/USD", { size := 1, price := some 100 })],
    cash := 5, value := 7, store_cash := 5, store_value := 7,
    next_tag := 4, calls := [ExCall.fetchOrder "o2", ExCall.fetchBalance],
    logs := [] }

/-- C2, evaluation at the failing input: a snapshot satisfying both the
closed and the canceled condition makes the reconciliation pass raise an
uncaught ValueError, from the second open order removal in the canceled
path, instead of completing without raising as claimed.  The error state
shows the closed-path ledger update did happen before the crash. -/
theorem C2_both_conditions_crash :
    CCXTBroker.next oraC2 mapC2 stC2 = .error (PyErr.valueError, stC2post) := by
  decide

def ordC3a : CCXTOrder :=
  { tag := 1, ccxt_id := "o3a", dataname := "BTC/USD", ordtype := "buy",
    size := 1, price := some 100, executed_fills := [], executions := [],
    status := .submitted }

def ordC3b : CCXTOrder :=
  { tag := 2, ccxt_id := "o3b", dataname := "BTC/USD", ordtype := "buy",
    size := 1, price := some 100, executed_fills := [], executions := [],
    status := .submitted }

def snapClosedC3 : Snapshot :=
  { id := "o3b", side := "buy", amount := 1, trades := none,
    fields := [("status", "closed")] }

/-- Oracle failing the fetch of the first order and reporting the second
order closed. -/
def oraC3 : StoreOracle :=
  { oraNull with
    fetch_order := fun i =>
      if i == "o3a" then .error (.exchangeError "boom") else .ok snapClosedC3 }

def stC3 : BrokerState :=
  { stEmpty with open_orders := [ordC3a, ordC3b], next_tag := 5 }

/-- C3, counterexample: a fetch failure on the first open order aborts the
whole reconciliation pass, not only that order.  In the error state the
second order, whose snapshot is closed and would have to be processed by
the claimed behaviour, has not even been fetched (the call trace holds
only the first fetch) and is still tracked with no notification. -/
theorem C3_counterexample :
    CCXTBroker.next oraC3 defaultMappings stC3 =
      .error (PyErr.exchangeError "boom",
              { stC3 with calls := [ExCall.fetchOrder "o3a"] }) := by decide

/-- Splitting a reconciliation run over an appended order list. -/
theorem runOrders_append (ora : StoreOracle) (m : Mappings) (l1 l2 : List CCXTOrder)
    (st : BrokerState) :
    CCXTBroker.runOrders ora m (l1 ++ l2) st =
      match CCXTBroker.runOrders ora m l1 st with
      | .ok mid => CCXTBroker.runOrders ora m l2 mid
      | .error e => .error e := by
  induction l1 generalizing st with
  | nil => simp [CCXTBroker.runOrders]
  | cons o rest ih =>
    simp only [List.cons_append, CCXTBroker.runOrders]
    cases h : CCXTBroker.nextStep ora m st o with
    | ok st1 => simpa using ih st1
    | error e => simp

/-- C3, amended: an unexpected condition while processing one order aborts
the entire reconciliation pass with that exception; the orders after it
in the iteration are not processed at all, whatever they are (the result
does not depend on them), and the state is frozen at the raise point. -/
theorem C3_amended_abort_whole_pass (ora : StoreOracle) (m : Mappings)
    (l1 : List CCXTOrder) (o : CCXTOrder) (l2 : List CCXTOrder)
    (st mid : BrokerState) (err : PyErr × BrokerState)
    (hopen : st.open_orders = l1 ++ o :: l2)
    (h1 : CCXTBroker.runOrders ora m l1 st = .ok mid)
    (h2 : CCXTBroker.nextStep ora m mid o = .error err) :
    CCXTBroker.next ora m st = .error err := by
  rw [CCXTBroker.next, hopen, runOrders_append, h1]
  simp [CCXTBroker.runOrders, h2]

/-- C3 witness for the amended claim: the two-order state of the
counterexample, with the failing order first and one order after it. -/
theorem C3_amended_witness :
    CCXTBroker.next oraC3 defaultMappings stC3 =
      .error (PyErr.exchangeError "boom",
              { stC3 with calls := [ExCall.fetchOrder "o3a"] }) :=
  C3_amended_abort_whole_pass oraC3 defaultMappings [] ordC3a [ordC3b] stC3 stC3
    (PyErr.exchangeError "boom", { stC3 with calls := [ExCall.fetchOrder "o3a"] })
    (by decide) rfl (by decide)

/-! Lemmas characterising one reconciliation step, used for the
terminal-transition property. -/

@[simp] theorem setCompleted_tag (o : CCXTOrder) :
    (CCXTBroker.setCompleted o).tag = o.tag := rfl

@[simp] theorem setCanceled_tag (o : CCXTOrder) :
    (CCXTBroker.setCanceled o).tag = o.tag := rfl

theorem foldlFills_tag (fills : List Fill) (o : CCXTOrder) :
    (fills.foldl
      (fun acc f =>
        if PyVal.pfill f ∈ acc.executed_fills then acc
        else
          { acc with
            executions := acc.executions ++ [(f.datetime, f.amount, f.price)],
            executed_fills := acc.executed_fills ++ [PyVal.pstr f.id] })
      o).tag = o.tag := by
  induction fills generalizing o with
  | nil => rfl
  | cons f fs ih =>
    rw [List.foldl_cons, ih]
    by_cases h : PyVal.pfill f ∈ o.executed_fills
    · rw [if_pos h]
    · rw [if_neg h]

@[simp] theorem applyFills_tag (o : CCXTOrder) (snap : Snapshot) :
    (CCXTBroker.applyFills o snap).tag = o.tag := by
  unfold CCXTBroker.applyFills
  cases snap.trades with
  | none => rfl
  | some fills => exact foldlFills_tag fills o

/-- When the canceled condition fails on the snapshot, the tail of a
reconciliation step leaves the state alone. -/
theorem afterClosed_not_canceled (m : Mappings) (s : BrokerState) (o : CCXTOrder)
    (snap : Snapshot) (st' : BrokerState)
    (h : CCXTBroker.afterClosed m s o snap = .ok st')
    (hnc : ¬ isCanceled m snap) :
    st' = s := by
  unfold CCXTBroker.afterClosed at h
  split at h
  · exact absurd h (by simp)
  · rename_i xv heq
    split at h
    · rename_i hxv
      exact absurd (show isCanceled m snap by rw [isCanceled, heq, hxv]) hnc
    · exact (Except.ok.inj h).symm

/-- When the canceled condition holds on the snapshot, the tail of a
reconciliation step removes the order and appends a canceled
notification. -/
theorem afterClosed_canceled (m : Mappings) (s : BrokerState) (o : CCXTOrder)
    (snap : Snapshot) (st' : BrokerState)
    (h : CCXTBroker.afterClosed m s o snap = .ok st')
    (hc : isCanceled m snap) :
    ∃ l, pyRemoveTag s.open_orders o.tag = .ok l ∧
      st' = { s with open_orders := l,
                     notifs := s.notifs ++ [CCXTBroker.setCanceled o] } := by
  unfold CCXTBroker.afterClosed at h
  split at h
  · rename_i e heq
    rw [show snapGet snap m.canceled_key = Except.ok m.canceled_val from hc] at heq
    exact absurd heq (by simp)
  · rename_i xv heq
    have hxv : xv = m.canceled_val := by
      rw [show snapGet snap m.canceled_key = Except.ok m.canceled_val from hc] at heq
      exact (Except.ok.inj heq).symm
    rw [if_pos hxv] at h
    split at h
    · exact absurd h (by simp)
    · rename_i l heq2
      exact ⟨l, heq2, (Except.ok.inj h).symm⟩

/-- A reconciliation step for one order never changes how often any other
object identity occurs in the open order set or in the notification
queue. -/
theorem nextStep_counts_other (ora : StoreOracle) (m : Mappings) (st : BrokerState)
    (o : CCXTOrder) (st' : BrokerState) (t : Nat)
    (h : CCXTBroker.nextStep ora m st o = .ok st') (ht : o.tag ≠ t) :
    countTag st'.open_orders t = countTag st.open_orders t ∧
    countTag st'.notifs t = countTag st.notifs t := by
  simp only [CCXTBroker.nextStep] at h
  split at h
  · exact absurd h (by simp)
  · rename_i snap hf
    split at h
    · exact absurd h (by simp)
    · rename_i cv hc
      split at h
      · rename_i hcv
        split at h
        · exact absurd h (by simp)
        · rename_i l hrem
          simp only [addCall_open, setCompleted_tag, applyFills_tag] at hrem
          by_cases hcanc : isCanceled m snap
          · obtain ⟨l2, hr2, hst⟩ := afterClosed_canceled _ _ _ _ _ h hcanc
            simp only [CCXTBroker.get_balance, setCompleted_tag, applyFills_tag] at hr2
            subst hst
            refine ⟨?_, ?_⟩
            · calc countTag l2 t
                  = countTag l t := pyRemoveTag_ok_other _ _ _ _ (Ne.symm ht) hr2
                _ = countTag (writeBack st.open_orders (CCXTBroker.applyFills o snap)) t :=
                    pyRemoveTag_ok_other _ _ _ _ (Ne.symm ht) hrem
                _ = countTag st.open_orders t := countTag_writeBack _ _ _
            · simp only [CCXTBroker.get_balance, addCall_notifs, countTag_singleton_append,
                         setCompleted_tag, setCanceled_tag, applyFills_tag, if_neg ht]
              omega
          · have hst := afterClosed_not_canceled _ _ _ _ _ h hcanc
            subst hst
            refine ⟨?_, ?_⟩
            · calc countTag (CCXTBroker.get_balance ora _).open_orders t
                  = countTag l t := by rw [get_balance_open]
                _ = countTag (writeBack st.open_orders (CCXTBroker.applyFills o snap)) t :=
                    pyRemoveTag_ok_other _ _ _ _ (Ne.symm ht) hrem
                _ = countTag st.open_orders t := countTag_writeBack _ _ _
            · simp only [CCXTBroker.get_balance, addCall_notifs, countTag_singleton_append,
                         setCompleted_tag, applyFills_tag, if_neg ht]
              omega
      · rename_i hcv
        by_cases hcanc : isCanceled m snap
        · obtain ⟨l2, hr2, hst⟩ := afterClosed_canceled _ _ _ _ _ h hcanc
          simp only [addCall_open, applyFills_tag] at hr2
          subst hst
          refine ⟨?_, ?_⟩
          · calc countTag l2 t
                = countTag (writeBack st.open_orders (CCXTBroker.applyFills o snap)) t :=
                  pyRemoveTag_ok_other _ _ _ _ (Ne.symm ht) hr2
              _ = countTag st.open_orders t := countTag_writeBack _ _ _
          · simp only [addCall_notifs, countTag_singleton_append,
                       setCanceled_tag, applyFills_tag, if_neg ht]
            omega
        · have hst := afterClosed_not_canceled _ _ _ _ _ h hcanc
          subst hst
          exact ⟨countTag_writeBack _ _ _, rfl⟩

/-- A successful reconciliation step for an order tracked exactly once:
on a terminal snapshot (closed or canceled, not both) the order leaves
the open set and exactly one notification with its identity is appended;
on a non-terminal snapshot it stays tracked once and no notification with
its identity is appended. -/
theorem nextStep_counts_self (ora : StoreOracle) (m : Mappings) (st : BrokerState)
    (o : CCXTOrder) (st' : BrokerState) (snap : Snapshot)
    (h : CCXTBroker.nextStep ora m st o = .ok st')
    (hf : ora.fetch_order o.ccxt_id = .ok snap)
    (hexcl : ¬ (isClosed m snap ∧ isCanceled m snap))
    (hone : countTag st.open_orders o.tag = 1) :
    ((isClosed m snap ∨ isCanceled m snap) →
        countTag st'.open_orders o.tag = 0 ∧
        countTag st'.notifs o.tag = countTag st.notifs o.tag + 1) ∧
    (¬ (isClosed m snap ∨ isCanceled m snap) →
        countTag st'.open_orders o.tag = 1 ∧
        countTag st'.notifs o.tag = countTag st.notifs o.tag) := by
  simp only [CCXTBroker.nextStep, hf] at h
  split at h
  · exact absurd h (by simp)
  · rename_i cv hc
    have hiff : isClosed m snap ↔ cv = m.closed_val := by
      simp [isClosed, hc]
    split at h
    · rename_i hcv
      have hcl : isClosed m snap := hiff.mpr hcv
      have hnc : ¬ isCanceled m snap := fun hca => hexcl ⟨hcl, hca⟩
      split at h
      · exact absurd h (by simp)
      · rename_i l hrem
        simp only [addCall_open, setCompleted_tag, applyFills_tag] at hrem
        have hst := afterClosed_not_canceled _ _ _ _ _ h hnc
        subst hst
        have h1 : countTag (writeBack st.open_orders (CCXTBroker.applyFills o snap)) o.tag = 1 := by
          rw [countTag_writeBack]; exact hone
        have h2 := pyRemoveTag_ok_self _ _ _ hrem
        constructor
        · intro _
          constructor
          · simp only [get_balance_open]
            omega
          · simp only [CCXTBroker.get_balance, addCall_notifs, countTag_singleton_append,
                       setCompleted_tag, applyFills_tag]
            simp
        · intro hn
          exact absurd (Or.inl hcl) hn
    · rename_i hcv
      have hncl : ¬ isClosed m snap := fun hcl => hcv (hiff.mp hcl)
      by_cases hcanc : isCanceled m snap
      · obtain ⟨l2, hr2, hst⟩ := afterClosed_canceled _ _ _ _ _ h hcanc
        simp only [addCall_open, applyFills_tag] at hr2
        subst hst
        have h1 : countTag (writeBack st.open_orders (CCXTBroker.applyFills o snap)) o.tag = 1 := by
          rw [countTag_writeBack]; exact hone
        have h2 := pyRemoveTag_ok_self _ _ _ hr2
        constructor
        · intro _
          constructor
          · show countTag l2 o.tag = 0
            omega
          · simp only [addCall_notifs, countTag_singleton_append,
                       setCanceled_tag, applyFills_tag]
            simp
        · intro hn
          exact absurd (Or.inr hcanc) hn
      · have hst := afterClosed_not_canceled _ _ _ _ _ h hcanc
        subst hst
        constructor
        · intro hterm
          rcases hterm with hcl | hca
          · exact absurd hcl hncl
          · exact absurd hca hcanc
        · intro _
          constructor
          · show countTag (writeBack st.open_orders (CCXTBroker.applyFills o snap)) o.tag = 1
            rw [countTag_writeBack]
            exact hone
          · rfl

/-- A successful run over orders none of which carries a given identity
leaves the open-set count and notification count of that identity
unchanged. -/
theorem runOrders_counts_other (ora : StoreOracle) (m : Mappings) (l : List CCXTOrder)
    (st st' : BrokerState) (t : Nat)
    (h : CCXTBroker.runOrders ora m l st = .ok st')
    (hl : ∀ x ∈ l, x.tag ≠ t) :
    countTag st'.open_orders t = countTag st.open_orders t ∧
    countTag st'.notifs t = countTag st.notifs t := by
  induction l generalizing st with
  | nil =>
    simp only [CCXTBroker.runOrders] at h
    have heq := Except.ok.inj h
    subst heq
    exact ⟨rfl, rfl⟩
  | cons o rest ih =>
    simp only [CCXTBroker.runOrders] at h
    cases hs : CCXTBroker.nextStep ora m st o with
    | error e =>
      rw [hs] at h
      exact absurd h (by simp)
    | ok st2 =>
      simp only [hs] at h
      have hstep := nextStep_counts_other ora m st o st2 t hs (hl o (List.mem_cons_self o rest))
      have hrest := ih st2 h (fun x hx => hl x (List.mem_cons_of_mem o hx))
      exact ⟨hrest.1.trans hstep.1, hrest.2.trans hstep.2⟩

/-- C4: in a successful reconciliation pass, every tracked order whose
fetched snapshot satisfies a terminal condition (closed or canceled, the
two not holding together) is removed from the open order set within that
pass and exactly one notification carrying its identity is enqueued; an
order whose snapshot satisfies neither condition stays tracked exactly
once and no notification with its identity is added. -/
theorem C4_terminal_exactly_once (ora : StoreOracle) (m : Mappings)
    (st st1 : BrokerState) (o : CCXTOrder) (snap : Snapshot)
    (hmem : o ∈ st.open_orders)
    (hone : countTag st.open_orders o.tag = 1)
    (hrun : CCXTBroker.next ora m st = .ok st1)
    (hfetch : ora.fetch_order o.ccxt_id = .ok snap)
    (hexcl : ¬ (isClosed m snap ∧ isCanceled m snap)) :
    ((isClosed m snap ∨ isCanceled m snap) →
        countTag st1.open_orders o.tag = 0 ∧
        countTag st1.notifs o.tag = countTag st.notifs o.tag + 1) ∧
    (¬ (isClosed m snap ∨ isCanceled m snap) →
        countTag st1.open_orders o.tag = 1 ∧
        countTag st1.notifs o.tag = countTag st.notifs o.tag) := by
  obtain ⟨l1, l2, hsplit⟩ := List.append_of_mem hmem
  unfold CCXTBroker.next at hrun
  rw [hsplit, runOrders_append] at hrun
  cases hmid : CCXTBroker.runOrders ora m l1 st with
  | error e =>
    rw [hmid] at hrun
    exact absurd hrun (by simp)
  | ok mid =>
    simp only [hmid] at hrun
    simp only [CCXTBroker.runOrders] at hrun
    cases hs : CCXTBroker.nextStep ora m mid o with
    | error e =>
      rw [hs] at hrun
      exact absurd hrun (by simp)
    | ok st2 =>
      simp only [hs] at hrun
      have hc12 : countTag l1 o.tag = 0 ∧ countTag l2 o.tag = 0 := by
        have hτ := hone
        rw [hsplit, countTag_append, countTag_cons] at hτ
        simp only [eq_self_iff_true, if_true] at hτ
        omega
      have hmore1 : ∀ x ∈ l1, x.tag ≠ o.tag := (countTag_eq_zero l1 o.tag).mp hc12.1
      have hmore2 : ∀ x ∈ l2, x.tag ≠ o.tag := (countTag_eq_zero l2 o.tag).mp hc12.2
      have hmidc := runOrders_counts_other ora m l1 st mid o.tag hmid hmore1
      have hmid_one : countTag mid.open_orders o.tag = 1 := by
        rw [hmidc.1]
        exact hone
      have hself := nextStep_counts_self ora m mid o st2 snap hs hfetch hexcl hmid_one
      have hrest := runOrders_counts_other ora m l2 st2 st1 o.tag hrun hmore2
      constructor
      · intro hterm
        obtain ⟨ho, hn⟩ := hself.1 hterm
        exact ⟨by rw [hrest.1, ho], by rw [hrest.2, hn, hmidc.2]⟩
      · intro hterm
        obtain ⟨ho, hn⟩ := hself.2 hterm
        exact ⟨by rw [hrest.1, ho], by rw [hrest.2, hn, hmidc.2]⟩

def stC4 : BrokerState := { stEmpty with open_orders := [ordW], next_tag := 8 }

/-- State produced by one reconciliation pass over stC4 against a closed
snapshot. -/
def stC4post : BrokerState :=
  { open_orders := [], notifs := [CCXTBroker.setCompleted ordW],
    positions := [("BTC/USD", { size := 1, price := some 100 })],
    cash := 0, value := 0, store_cash := 0, store_value := 0,
    next_tag := 8, calls := [ExCall.fetchOrder "w1", ExCall.fetchBalance],
    logs := [] }

/-- C4 witness: a pass over one tracked order whose snapshot is closed
removes it and enqueues exactly one notification for it. -/
theorem C4_witness :
    countTag stC4post.open_orders ordW.tag = 0 ∧
    countTag stC4post.notifs ordW.tag = countTag stC4.notifs ordW.tag + 1 :=
  (C4_terminal_exactly_once oraClosedW defaultMappings stC4 stC4post ordW snapClosedW
    (by decide) (by decide) (by decide) rfl (by decide)).1 (Or.inl (by decide))

/-- C7: close with size none and closeAll false offsets the remote
position: a negative position amount issues a buy of its absolute size, a
positive one issues a sell of its absolute size (the created order is
returned), and a missing position entry is a no-op returning none after
only the position fetch, without raising. -/
theorem C7_close_offsetting (ora : StoreOracle) (ots : List (OrderKind × String))
    (st : BrokerState) (dn : String) (now : Int) :
    (∀ p co snap,
       (ora.positions.filter (fun q => q.symbol == CCXTBroker.stripSlash dn)).head? = some p →
       p.positionAmt < 0 →
       ora.create_order dn "market" "buy" |p.positionAmt| none [("created", now)] = .ok co →
       ora.fetch_order co.id = .ok snap →
       (CCXTBroker.close ora ots st dn none false now).map
           (fun r => (r.1.isSome, r.2.calls)) =
         .ok (true, st.calls ++ [ExCall.fetchPositions,
              ExCall.createOrder dn "market" "buy" |p.positionAmt| none,
              ExCall.fetchOrder co.id])) ∧
    (∀ p co snap,
       (ora.positions.filter (fun q => q.symbol == CCXTBroker.stripSlash dn)).head? = some p →
       0 < p.positionAmt →
       ora.create_order dn "market" "sell" |p.positionAmt| none [("created", now)] = .ok co →
       ora.fetch_order co.id = .ok snap →
       (CCXTBroker.close ora ots st dn none false now).map
           (fun r => (r.1.isSome, r.2.calls)) =
         .ok (true, st.calls ++ [ExCall.fetchPositions,
              ExCall.createOrder dn "market" "sell" |p.positionAmt| none,
              ExCall.fetchOrder co.id])) ∧
    ((ora.positions.filter (fun q => q.symbol == CCXTBroker.stripSlash dn)).head? = none →
       CCXTBroker.close ora ots st dn none false now =
         .ok (none, addCall st ExCall.fetchPositions)) := by
  refine ⟨?_, ?_, ?_⟩
  · intro p co snap hp hneg hcreate hfetch
    have hnz : ¬(|p.positionAmt| = 0 ∨ (none : Option Int) = some 0) := by
      simp [abs_eq_zero]
      omega
    simp only [CCXTBroker.close, hp]
    rw [if_neg (by simp)]
    rw [if_neg (show ¬ (0 : Int) < p.positionAmt by omega), if_pos hneg]
    simp only [CCXTBroker.buy, CCXTBroker.submit, Option.getD_none]
    rw [if_neg hnz]
    simp only [Option.none_bind, Option.getD_none, List.nil_append, hcreate, hfetch]
    simp [Except.map, addCall, List.append_assoc]
  · intro p co snap hp hpos hcreate hfetch
    have hnz : ¬(|p.positionAmt| = 0 ∨ (none : Option Int) = some 0) := by
      simp [abs_eq_zero]
      omega
    simp only [CCXTBroker.close, hp]
    rw [if_neg (by simp)]
    rw [if_pos hpos]
    simp only [CCXTBroker.sell, CCXTBroker.submit, Option.getD_none]
    rw [if_neg hnz]
    simp only [Option.none_bind, Option.getD_none, List.nil_append, hcreate, hfetch]
    simp [Except.map, addCall, List.append_assoc]
  · intro hp
    simp only [CCXTBroker.close, hp]
    rw [if_neg (by simp)]

def posC7 : BinancePos := { symbol := "ETHUSD", positionAmt := -2 }

def coC7 : CreatedOrder := { id := "c7", price := none }

def snapC7 : Snapshot :=
  { id := "c7", side := "buy", amount := 2, trades := none,
    fields := [("status", "open")] }

def oraC7 : StoreOracle :=
  { oraNull with positions := [posC7],
                 create_order := fun _ _ _ _ _ _ => .ok coC7,
                 fetch_order := fun _ => .ok snapC7 }

/-- C7 witness: a remote ETH position of minus two with size none and
closeAll false issues a buy of size two. -/
theorem C7_witness :
    (CCXTBroker.close oraC7 defaultOrderTypes stEmpty "ETH/USD" none false 5).map
        (fun r => (r.1.isSome, r.2.calls)) =
      .ok (true, stEmpty.calls ++ [ExCall.fetchPositions,
           ExCall.createOrder "ETH/USD" "market" "buy" 2 none,
           ExCall.fetchOrder "c7"]) := by
  have h := (C7_close_offsetting oraC7 defaultOrderTypes stEmpty "ETH/USD" 5).1 posC7 coC7
      snapC7 (by decide) (by decide) rfl rfl
  simpa using h
